import Mathlib

/- Shallow embedding of `substrate-sidecar-tests.py` from
papermoonio/sidecar-tests-substrate: a sequential test harness that
cross-validates a Substrate Sidecar HTTP API against the node's own RPC
interface.  Pure data transformations are embedded as Lean functions;
Python exceptions are modelled with `Except PyErr`; the network is
modelled by passing each routine the outcome of its HTTP/RPC requests
(the attempt oracle `Nat → HttpAttempt α` for the retrying sidecar
fetcher, and already-fetched `(Option value, Option error)` pairs -- the
exact tuple shape the Python functions return -- elsewhere).  External
collaborators explicitly out of scope for the repository (the
`substrateinterface` SCALE decoder, the HTTP client, logging, argument
parsing) appear only through their results. -/

namespace SidecarTests

/-- Python exception kinds raised by the embedded code paths. -/
inductive PyErr where
  | typeError
  | valueError
  | attributeError
  | keyError
  | indexError
  deriving DecidableEq, Repr

/-- Heterogeneous values appearing in field comparisons: Python ints,
strings, and `None` (a `dict.get` miss).  Equality is structural, as in
Python `==` restricted to these types (an int never equals a string, and
`None` equals only `None`). -/
inductive Val where
  | int (n : Int)
  | str (s : String)
  | none
  deriving DecidableEq, Repr

/-- Python truthiness of an optional string (`if x:`): `None` and the
empty string are falsy. -/
def pyTruthyStr : Option String → Bool
  | Option.none => false
  | some s => !s.isEmpty

/-- Value of one decimal digit, if the character is one. -/
def decDigitVal : Char → Option Nat := fun c =>
  if '0' ≤ c ∧ c ≤ '9' then some (c.toNat - '0'.toNat) else Option.none

/-- Accumulating base-10 evaluation of a digit list. -/
def decNatAux : List Char → Nat → Option Nat
  | [], acc => some acc
  | c :: cs, acc =>
    match decDigitVal c with
    | some d => decNatAux cs (acc * 10 + d)
    | Option.none => Option.none

/-- Python `int(x)` applied to the result of a `dict.get` that yields a
decimal string or nothing: `int(None)` raises `TypeError`, an empty or
unparsable string raises `ValueError`; an optional leading minus sign is
accepted. -/
def pyIntDec : Option String → Except PyErr Int
  | Option.none => .error .typeError
  | some s =>
    match s.data with
    | [] => .error .valueError
    | '-' :: cs =>
      match cs, decNatAux cs 0 with
      | _ :: _, some n => .ok (-(n : Int))
      | _, _ => .error .valueError
    | cs =>
      match decNatAux cs 0 with
      | some n => .ok (n : Int)
      | Option.none => .error .valueError

/-- Value of one hexadecimal digit, if the character is one. -/
def hexDigitVal : Char → Option Nat := fun c =>
  if '0' ≤ c ∧ c ≤ '9' then some (c.toNat - '0'.toNat)
  else if 'a' ≤ c ∧ c ≤ 'f' then some (c.toNat - 'a'.toNat + 10)
  else if 'A' ≤ c ∧ c ≤ 'F' then some (c.toNat - 'A'.toNat + 10)
  else Option.none

/-- Accumulating base-16 evaluation of a digit list. -/
def hexNatAux : List Char → Nat → Option Nat
  | [], acc => some acc
  | c :: cs, acc =>
    match hexDigitVal c with
    | some d => hexNatAux cs (acc * 16 + d)
    | Option.none => Option.none

/-- Drop an optional leading `0x`/`0X`. -/
def dropHexMarker : List Char → List Char
  | '0' :: 'x' :: cs => cs
  | '0' :: 'X' :: cs => cs
  | cs => cs

/-- Python `int(s, 16)` on the node's hex block numbers: accepts an
optional `0x`/`0X` prefix, raises `ValueError` on an empty or non-hex
string.  (Sign handling is omitted; block numbers are unsigned.) -/
def pyIntHex (s : String) : Except PyErr Int :=
  match dropHexMarker s.data with
  | [] => .error .valueError
  | t =>
    match hexNatAux t 0 with
    | some n => .ok (n : Int)
    | Option.none => .error .valueError

/-- Python `str.lower()` (ASCII case folding, per character). -/
def pyLower (s : String) : String := String.mk (s.data.map Char.toLower)

/-- Python `str.replace("_", "")`: removes every underscore. -/
def pyStripUnderscores (s : String) : String :=
  String.mk (s.data.filter (fun c => c != '_'))

/-! ### Sidecar fetcher (`_fetch_sidecar_data`) -/

/-- Outcome of one `requests.get` call: either an HTTP response (status
code, body text, and the parsed JSON payload of type `α`), or a raised
exception with its message. -/
inductive HttpAttempt (α : Type) where
  | response (status : Nat) (text : String) (json : α)
  | exc (msg : String)
  deriving DecidableEq, Repr

/-- True when the attempt is an HTTP response with a non-200 status. -/
def HttpAttempt.isNon200 : HttpAttempt α → Bool
  | .response st _ _ => st != 200
  | .exc _ => false

/-- The error description the Python code derives from a failed attempt:
`"HTTP {status}: {body}"` for a response, the exception text otherwise. -/
def HttpAttempt.errText : HttpAttempt α → String
  | .response st text _ => s!"HTTP {st}: {text}"
  | .exc m => m

/-- Body of the retry loop of `_fetch_sidecar_data`.  `f` gives the
outcome of the HTTP request at each attempt index, `lastIdx` is
`retry_attempts - 1`, `a` the current attempt index, and the fuel is the
number of loop iterations left (`retry_attempts - a`).  Returns the
Python function's `(data, error)` pair together with the number of HTTP
requests performed and the total seconds slept (the code sleeps 2
seconds at the top of every iteration after the first). -/
def fetchGo (f : Nat → HttpAttempt α) (lastIdx : Nat) :
    Nat → Nat → (Option α × Option String) × Nat × Nat
  | _, 0 => ((Option.none, some "Max retries exceeded"), 0, 0)
  | a, fuel + 1 =>
    let sleep := if 0 < a then 2 else 0
    match f a with
    | .response st text j =>
      if st = 200 then ((some j, Option.none), 1, sleep)
      else if a = lastIdx then
        ((Option.none, some s!"HTTP {st}: {text}"), 1, sleep)
      else
        let r := fetchGo f lastIdx (a + 1) fuel
        (r.1, r.2.1 + 1, r.2.2 + sleep)
    | .exc m =>
      if a = lastIdx then ((Option.none, some m), 1, sleep)
      else
        let r := fetchGo f lastIdx (a + 1) fuel
        (r.1, r.2.1 + 1, r.2.2 + sleep)

/-- `_fetch_sidecar_data`: run the retry loop `for attempt in
range(retry_attempts)` over the attempt oracle `f`.  Falling out of the
loop (an empty range) yields `(None, "Max retries exceeded")`. -/
def _fetch_sidecar_data (retryAttempts : Int) (f : Nat → HttpAttempt α) :
    (Option α × Option String) × Nat × Nat :=
  fetchGo f (retryAttempts.toNat - 1) 0 retryAttempts.toNat

/-! ### Block payloads

JSON payloads are modelled as records whose fields are exactly the keys
the Python code accesses; a `dict.get` miss is an `Option.none` field. -/

/-- The `method` object of a sidecar extrinsic (`{"pallet": ..,
"method": ..}`); each key may be absent. -/
structure SidecarMethod where
  pallet : Option String
  method : Option String
  deriving DecidableEq, Repr

/-- The `signer` object inside a sidecar signature (`{"id": ..}`). -/
structure SidecarSigner where
  id : Option String
  deriving DecidableEq, Repr

/-- The `signature` object of a sidecar extrinsic.  A present value
stands for a non-empty (hence Python-truthy) signature dict; an absent
key maps to `Option.none` at the use site. -/
structure SidecarSignature where
  signer : Option SidecarSigner
  deriving DecidableEq, Repr

/-- One extrinsic record of a sidecar block. -/
structure SidecarExtrinsic where
  method : Option SidecarMethod
  signature : Option SidecarSignature
  deriving DecidableEq, Repr

/-- A sidecar block payload (`GET /blocks/{id}`).  `number` is the
decimal string the sidecar reports; `extrinsics` is `Option.none` when
the key is absent (the code then defaults it to `[]`). -/
structure SidecarBlock where
  hash : Option String
  number : Option String
  parentHash : Option String
  stateRoot : Option String
  extrinsicsRoot : Option String
  extrinsics : Option (List SidecarExtrinsic)
  deriving DecidableEq, Repr

/-- The `signature.signer` path of a node-side extrinsic dict, reduced
to the single `address` leaf the code reads. -/
structure NodeSignature where
  signerAddress : String
  deriving DecidableEq, Repr

/-- One entry of the node block's `extrinsics` list.  `callModule` and
`callFunction` are the output of the external SCALE decoder
(`substrate.decode_scale(...)['call']['call_module' / 'call_function']`,
an out-of-scope collaborator); `signature` models the raw
`extrinsic_rpc['signature']` dict access, `KeyError` when absent. -/
structure NodeExtrinsic where
  callModule : String
  callFunction : String
  signature : Option NodeSignature
  deriving DecidableEq, Repr

/-- The `block.header` object of a `chain_getBlock` response; `number`
is a hex string. -/
structure RpcHeader where
  number : String
  parentHash : String
  stateRoot : String
  extrinsicsRoot : String
  deriving DecidableEq, Repr

/-- The `block` object of a `chain_getBlock` response. -/
structure RpcBlock where
  header : RpcHeader
  extrinsics : List NodeExtrinsic
  deriving DecidableEq, Repr

/-! ### Block validator (`_check_block`) -/

/-- One `(field name, sidecar value, rpc value)` comparison triple. -/
abbrev FieldComparison := String × Val × Val

/-- An optional string as a comparison value: `dict.get` yields `None`
when the key is absent. -/
def optVal : Option String → Val
  | Option.none => Val.none
  | some s => Val.str s

/-- Comparisons appended for one sidecar extrinsic paired with the
node extrinsic at the same index (loop body of `_check_block`): pallet
and method (sidecar side lowercased; node side lowercased and
underscore-stripped), plus a signer comparison when the sidecar record
carries a (truthy) `signature` object. -/
def extComparisons (se : SidecarExtrinsic) (ne : NodeExtrinsic) :
    Except PyErr (List FieldComparison) :=
  let m := se.method.getD { pallet := Option.none, method := Option.none }
  let sidecarPallet := m.pallet.getD "unknown"
  let sidecarMethodName := m.method.getD "unknown"
  let base : List FieldComparison :=
    [("Extrinsics - Pallet", Val.str (pyLower sidecarPallet),
       Val.str (pyStripUnderscores (pyLower ne.callModule))),
     ("Extrinsics - Method", Val.str (pyLower sidecarMethodName),
       Val.str (pyStripUnderscores (pyLower ne.callFunction)))]
  match se.signature with
  | Option.none => .ok base
  | some sig =>
    match ne.signature with
    | Option.none => .error .keyError
    | some nsig =>
      .ok (base ++
        [("Extrinsics - Signer",
          Val.str ((sig.signer.getD { id := Option.none }).id.getD "unknown"),
          Val.str nsig.signerAddress)])

/-- The extrinsic loop of `_check_block`: walks the sidecar list with
the node list index-aligned (`rpc_block['block']['extrinsics'][i]`);
an exhausted node list is an `IndexError`. -/
def extrinsicComparisons :
    List SidecarExtrinsic → List NodeExtrinsic →
    Except PyErr (List FieldComparison)
  | [], _ => .ok []
  | _ :: _, [] => .error .indexError
  | se :: ss, ne :: ns =>
    match extComparisons se ne with
    | .error e => .error e
    | .ok head =>
      match extrinsicComparisons ss ns with
      | .error e => .error e
      | .ok tail => .ok (head ++ tail)

/-- The full comparison list `_check_block` builds for a sidecar block
and the node block fetched by its hash: the five header comparisons
(block number after decimal/hex parsing, parent hash, state root,
extrinsics root, extrinsics count) followed by the per-extrinsic
comparisons.  `int(sidecar_data.get('number'))` is evaluated first, so
a missing or malformed number raises before anything is compared. -/
def buildComparisons (sb : SidecarBlock) (rb : RpcBlock) :
    Except PyErr (List FieldComparison) :=
  match pyIntDec sb.number with
  | .error e => .error e
  | .ok n =>
    match pyIntHex rb.header.number with
    | .error e => .error e
    | .ok rn =>
      match extrinsicComparisons (sb.extrinsics.getD []) rb.extrinsics with
      | .error e => .error e
      | .ok extCmps =>
        .ok (
          [("Block Number", Val.int n, Val.int rn),
           ("Parent Hash", optVal sb.parentHash, Val.str rb.header.parentHash),
           ("State Root", optVal sb.stateRoot, Val.str rb.header.stateRoot),
           ("Extrinsics Root", optVal sb.extrinsicsRoot,
             Val.str rb.header.extrinsicsRoot),
           ("Extrinsics count", Val.int (sb.extrinsics.getD []).length,
             Val.int rb.extrinsics.length)]
          ++ extCmps)

/-- The final loop of `_check_block`: `all_passed` stays true exactly
when every comparison's two values are equal. -/
def runComparisons (cs : List FieldComparison) : Bool :=
  cs.all (fun c => c.2.1 == c.2.2)

/-- `_check_block`, given the already-performed fetches: the sidecar
`(data, error)` pair and, for the extracted hash, the node RPC
`(data, error)` pair.  A truthy fetch error or a falsy block hash
returns `False`; a `None` payload with no error would crash the
subsequent attribute/subscript access. -/
def _check_block (sres : Option SidecarBlock × Option String)
    (rfetch : String → Option RpcBlock × Option String) :
    Except PyErr Bool :=
  if pyTruthyStr sres.2 then .ok false
  else
    match sres.1 with
    | Option.none => .error .attributeError
    | some sb =>
      let blockHash := sb.hash.getD ""
      if blockHash = "" then .ok false
      else
        let rres := rfetch blockHash
        if pyTruthyStr rres.2 then .ok false
        else
          match rres.1 with
          | Option.none => .error .typeError
          | some rb =>
            match buildComparisons sb rb with
            | .error e => .error e
            | .ok cs => .ok (runComparisons cs)

/-! ### Last-N-blocks check (`test_last_n_blocks_transactions`) -/

/-- `ext.get('method', {}).get('pallet', '')` as read by the statistics
loop. -/
def sidecarPallet (e : SidecarExtrinsic) : String :=
  ((e.method.getD { pallet := Option.none, method := Option.none }).pallet).getD ""

/-- `ext.get('method', {}).get('method', '')` as read by the statistics
loop. -/
def sidecarMethodName (e : SidecarExtrinsic) : String :=
  ((e.method.getD { pallet := Option.none, method := Option.none }).method).getD ""

/-- The inherent filter of the statistics loop: an extrinsic is skipped
exactly when it is `timestamp.set`, or `parachainSystem` with method
`setValidationData` or `sudo` (pallet and method default to `""` when
absent). -/
def isSkippedInherent (e : SidecarExtrinsic) : Bool :=
  (sidecarPallet e == "timestamp" && sidecarMethodName e == "set") ||
    (sidecarPallet e == "parachainSystem" &&
      (sidecarMethodName e == "setValidationData" ||
       sidecarMethodName e == "sudo"))

/-- The `actual_transactions` counter: number of extrinsics that are
not skipped inherents. -/
def actualTransactionCount : List SidecarExtrinsic → Nat
  | [] => 0
  | e :: es =>
    (if !isSkippedInherent e then 1 else 0) + actualTransactionCount es

/-- Loop state of `test_last_n_blocks_transactions`: the `all_passed`
flag and the two statistics counters, plus the list of block heights
passed to `_check_block` so far (instrumentation recording what the
loop validated, in order). -/
structure LastNState where
  allPassed : Bool
  totalTransactions : Nat
  totalExtrinsics : Nat
  tested : List Int
  deriving DecidableEq, Repr

/-- One iteration of the last-N-blocks loop at offset `i` from the head
height: validate block `head - i`; on failure flip `all_passed` and
`continue`; on success re-fetch the block from the sidecar and, if that
fetch yielded a (truthy) payload, accumulate its extrinsic statistics
(the second fetch's error is discarded). -/
def lastNStep (checkB : Int → Except PyErr Bool)
    (fetchB : Int → Option SidecarBlock × Option String)
    (headNumber : Int) (st : LastNState) (i : Nat) :
    Except PyErr LastNState :=
  match checkB (headNumber - i) with
  | .error e => .error e
  | .ok passed =>
    if !passed then
      .ok { st with allPassed := false
                    tested := st.tested ++ [headNumber - i] }
    else
      match (fetchB (headNumber - i)).1 with
      | Option.none => .ok { st with tested := st.tested ++ [headNumber - i] }
      | some sb =>
        .ok { st with
          totalExtrinsics := st.totalExtrinsics + (sb.extrinsics.getD []).length
          totalTransactions := st.totalTransactions +
            actualTransactionCount (sb.extrinsics.getD [])
          tested := st.tested ++ [headNumber - i] }

/-- The `for i in range(num_blocks)` loop of
`test_last_n_blocks_transactions`, from the initial state
(`all_passed = True`, both counters `0`). -/
def lastNLoop (checkB : Int → Except PyErr Bool)
    (fetchB : Int → Option SidecarBlock × Option String)
    (headNumber : Int) (numBlocks : Nat) : Except PyErr LastNState :=
  (List.range numBlocks).foldlM (lastNStep checkB fetchB headNumber)
    { allPassed := true, totalTransactions := 0, totalExtrinsics := 0,
      tested := [] }

/-- `test_last_n_blocks_transactions`, given the head fetch result and
per-height oracles for `_check_block` and the statistics re-fetch.  A
truthy head fetch error returns `False`; otherwise the head height is
`int(sidecar_head.get('number'))` and the loop result's `all_passed`
flag is returned. -/
def test_last_n_blocks_transactions (numBlocks : Nat)
    (headFetch : Option SidecarBlock × Option String)
    (checkB : Int → Except PyErr Bool)
    (fetchB : Int → Option SidecarBlock × Option String) :
    Except PyErr Bool :=
  if pyTruthyStr headFetch.2 then .ok false
  else
    match headFetch.1 with
    | Option.none => .error .attributeError
    | some headBlock =>
      match pyIntDec headBlock.number with
      | .error e => .error e
      | .ok headNumber =>
        match lastNLoop checkB fetchB headNumber numBlocks with
        | .error e => .error e
        | .ok st => .ok st.allPassed

/-! ### Run driver (`run_tests`) -/

/-- `run_tests`, given the node connection outcome and the four check
results.  Returns the overall boolean (`passed_tests == total_tests`)
together with the recorded `(label, passed)` list; a failed connection
returns immediately with nothing recorded. -/
def run_tests (connected : Bool) (nodeInfo runtimeVersion headBlock lastN : Bool)
    (numBlocksToTest : Nat) : Bool × List (String × Bool) :=
  if !connected then (false, [])
  else
    let testResults : List (String × Bool) :=
      [("Node Info", nodeInfo),
       ("Runtime Version", runtimeVersion),
       ("Head Block", headBlock),
       (s!"Last {numBlocksToTest} Blocks Transactions", lastN)]
    let passedTests := (testResults.filter (fun r => r.2)).length
    (passedTests == testResults.length, testResults)

/-! ### Lemmas about the fetch retry loop -/

theorem fetchGo_not_both (f : Nat → HttpAttempt α) (lastIdx : Nat) :
    ∀ (fuel a : Nat),
      ¬((fetchGo f lastIdx a fuel).1.1.isSome = true ∧
        (fetchGo f lastIdx a fuel).1.2.isSome = true)
  | 0, a => by simp [fetchGo]
  | fuel + 1, a => by
    simp only [fetchGo]
    cases f a with
    | response st text j =>
      by_cases h200 : st = 200
      · simp [h200]
      · by_cases hl : a = lastIdx
        · simp [h200, hl]
        · simp only [if_neg h200, if_neg hl]
          exact fetchGo_not_both f lastIdx fuel (a + 1)
    | exc m =>
      by_cases hl : a = lastIdx
      · simp [hl]
      · simp only [if_neg hl]
        exact fetchGo_not_both f lastIdx fuel (a + 1)

theorem fetchGo_allFail (f : Nat → HttpAttempt α) (k : Nat)
    (hf : ∀ i, i < k → (f i).isNon200 = true) :
    ∀ (fuel a : Nat), a + fuel = k → a < k →
      fetchGo f (k - 1) a fuel =
        ((Option.none, some ((f (k - 1)).errText)), fuel,
          if a = 0 then 2 * (fuel - 1) else 2 * fuel)
  | 0, _, hak, hlt => absurd hak (by omega)
  | fuel + 1, a, hak, hlt => by
    have hna := hf a hlt
    cases hfa : f a with
    | response st text j =>
      rw [hfa] at hna
      have hst : ¬(st = 200) := by
        simpa [HttpAttempt.isNon200] using hna
      by_cases hl : a = k - 1
      · have hfuel : fuel = 0 := by omega
        subst hfuel
        have herr : (f (k - 1)).errText = s!"HTTP {st}: {text}" := by
          rw [← hl, hfa]; rfl
        simp only [fetchGo, hfa, if_neg hst, if_pos hl, herr]
        by_cases ha0 : a = 0
        · simp [ha0]
        · simp [ha0, Nat.pos_of_ne_zero ha0]
      · have hfuel : 1 ≤ fuel := by omega
        have ih := fetchGo_allFail f k hf fuel (a + 1) (by omega) (by omega)
        simp only [fetchGo, hfa, if_neg hst, if_neg hl, ih]
        have ha1 : ¬(a + 1 = 0) := by omega
        rw [if_neg ha1]
        by_cases ha0 : a = 0
        · simp [ha0]
        · simp [ha0, Nat.pos_of_ne_zero ha0]
          omega
    | exc m =>
      rw [hfa] at hna
      simp [HttpAttempt.isNon200] at hna

/-- C4: with a configured retry count `k ≥ 1` and every HTTP attempt
returning a non-200 status, `_fetch_sidecar_data` performs exactly `k`
requests, sleeps 2 seconds between consecutive attempts (`2 * (k - 1)`
seconds in total), and returns no value together with the last
attempt's error description (`"HTTP {status}: {body}"`); moreover, for
any retry count and any attempt outcomes, the fetcher never returns
both a value and an error. -/
theorem fetch_retries_exhaust_with_last_error (k : Nat) (hk : 1 ≤ k)
    (f : Nat → HttpAttempt α) (hf : ∀ i, i < k → (f i).isNon200 = true) :
    _fetch_sidecar_data (k : Int) f =
      ((Option.none, some ((f (k - 1)).errText)), k, 2 * (k - 1)) ∧
    ∀ (β : Type) (r : Int) (g : Nat → HttpAttempt β),
      ¬((_fetch_sidecar_data r g).1.1.isSome = true ∧
        (_fetch_sidecar_data r g).1.2.isSome = true) := by
  constructor
  · have htn : (k : Int).toNat = k := Int.toNat_natCast k
    have h := fetchGo_allFail f k hf k 0 (by omega) (by omega)
    simp only [_fetch_sidecar_data, htn]
    rw [h]
    simp
  · intro β r g
    exact fetchGo_not_both g (r.toNat - 1) r.toNat 0

theorem fetch_retries_exhaust_with_last_error_witness :
    _fetch_sidecar_data (3 : Int)
        (fun _ => HttpAttempt.response 500 "oops" (0 : Nat)) =
      ((Option.none, some "HTTP 500: oops"), 3, 4) := by
  have h := (fetch_retries_exhaust_with_last_error 3 (by omega)
    (fun _ => HttpAttempt.response 500 "oops" (0 : Nat))
    (fun i _ => rfl)).1
  simpa using h

/-- C10: a retry count of 0 (or a negative one) makes the `range` of the
retry loop empty, so `_fetch_sidecar_data` performs no HTTP request,
sleeps not at all, and returns no value with the fixed error string
`"Max retries exceeded"`. -/
theorem fetch_zero_retries_no_request (r : Int) (hr : r ≤ 0)
    (f : Nat → HttpAttempt α) :
    _fetch_sidecar_data r f =
      ((Option.none, some "Max retries exceeded"), 0, 0) := by
  have h0 : r.toNat = 0 := Int.toNat_of_nonpos hr
  simp [_fetch_sidecar_data, h0, fetchGo]

theorem fetch_zero_retries_no_request_witness :
    _fetch_sidecar_data (-2 : Int) (fun _ => HttpAttempt.exc "boom" (α := Nat)) =
      ((Option.none, some "Max retries exceeded"), 0, 0) :=
  fetch_zero_retries_no_request (-2) (by omega) _

/-! ### Name normalization (pallet / method comparison) -/

/-- The node-side name normalization the code applies on line 144/145:
`name.lower().replace("_", "")`. -/
def nodeNameNorm (s : String) : String := pyStripUnderscores (pyLower s)

/-- Stated from the spec sentence under test for C2: the claimed
normalization applied to BOTH sides -- lowercase, then strip
underscores. -/
def specNormalizeName (s : String) : String := pyStripUnderscores (pyLower s)

theorem toLower_toLower (c : Char) : c.toLower.toLower = c.toLower := by
  unfold Char.toLower
  by_cases h : c.toNat ≥ 65 ∧ c.toNat ≤ 90
  · rw [if_pos h]
    have hv : Nat.isValidChar (c.toNat + 32) := Or.inl (by omega)
    have ht : (Char.ofNat (c.toNat + 32)).toNat = c.toNat + 32 := by
      rw [Char.ofNat, dif_pos hv]
      rfl
    rw [if_neg (by omega)]
  · rw [if_neg h, if_neg h]

theorem toLower_underscore (c : Char) : (c.toLower != '_') = (c != '_') := by
  by_cases h : c = '_'
  · subst h; rfl
  · have hl : ¬(c.toLower = '_') := by
      intro hcon
      unfold Char.toLower at hcon
      by_cases hc : c.toNat ≥ 65 ∧ c.toNat ≤ 90
      · rw [if_pos hc] at hcon
        have hv : Nat.isValidChar (c.toNat + 32) := Or.inl (by omega)
        have ht : (Char.ofNat (c.toNat + 32)).toNat = c.toNat + 32 := by
          rw [Char.ofNat, dif_pos hv]
          rfl
        rw [hcon] at ht
        have : ('_' : Char).toNat = 95 := by decide
        omega
      · rw [if_neg hc] at hcon
        exact h hcon
    have h1 : (c != '_') = true := by simp [h]
    have h2 : (c.toLower != '_') = true := by simp [hl]
    rw [h1, h2]

theorem map_toLower_filter_comm (l : List Char) :
    (l.filter (fun c => c != '_')).map Char.toLower =
      (l.map Char.toLower).filter (fun c => c != '_') := by
  induction l with
  | nil => rfl
  | cons c cs ih =>
    by_cases h : (c != '_') = true
    · have h' : (c.toLower != '_') = true := by rw [toLower_underscore]; exact h
      simp [List.filter_cons, h, h', ih]
    · have h' : ¬((c.toLower != '_') = true) := by rw [toLower_underscore]; exact h
      simp [List.filter_cons, h, h', ih]

theorem map_toLower_idem (l : List Char) :
    (l.map Char.toLower).map Char.toLower = l.map Char.toLower := by
  rw [List.map_map]
  exact List.map_congr_left (fun c _ => toLower_toLower c)

theorem filter_underscore_idem (l : List Char) :
    (l.filter (fun c => c != '_')).filter (fun c => c != '_') =
      l.filter (fun c => c != '_') := by
  induction l with
  | nil => rfl
  | cons c cs ih =>
    by_cases h : (c != '_') = true
    · simp [List.filter_cons, h, ih]
    · simp [List.filter_cons, h, ih]

theorem nodeNameNorm_idem (s : String) :
    nodeNameNorm (nodeNameNorm s) = nodeNameNorm s := by
  unfold nodeNameNorm pyStripUnderscores pyLower
  refine congrArg String.mk ?_
  show (((s.data.map Char.toLower).filter _).map Char.toLower).filter _ = _
  rw [map_toLower_filter_comm, map_toLower_idem, filter_underscore_idem]

theorem nodeNameNorm_lower_invariant (s : String) :
    nodeNameNorm (pyLower s) = nodeNameNorm s := by
  unfold nodeNameNorm pyStripUnderscores pyLower
  refine congrArg String.mk ?_
  show ((s.data.map Char.toLower).map Char.toLower).filter _ = _
  rw [map_toLower_idem]

theorem nodeNameNorm_strip_invariant (s : String) :
    nodeNameNorm (pyStripUnderscores s) = nodeNameNorm s := by
  unfold nodeNameNorm pyStripUnderscores pyLower
  refine congrArg String.mk ?_
  show ((s.data.filter _).map Char.toLower).filter _ = _
  rw [map_toLower_filter_comm, filter_underscore_idem]

/-- A sidecar block whose single extrinsic carries the underscored
pallet/method names the node also reports, with every header field
agreeing with `rbC2`. -/
def sbC2 : SidecarBlock :=
  { hash := some "0xh", number := some "100",
    parentHash := some "0xp", stateRoot := some "0xs",
    extrinsicsRoot := some "0xe",
    extrinsics := some
      [{ method := some { pallet := some "parachain_system",
                          method := some "set_validation_data" },
         signature := Option.none }] }

/-- The node block matching `sbC2`, reporting the identical underscored
pallet/method names. -/
def rbC2 : RpcBlock :=
  { header := { number := "0x64", parentHash := "0xp", stateRoot := "0xs",
                extrinsicsRoot := "0xe" },
    extrinsics := [{ callModule := "parachain_system",
                     callFunction := "set_validation_data",
                     signature := Option.none }] }

/-- C2 counterexample: the claim predicts that after normalizing BOTH
sides by lowercasing and underscore-stripping, equal names compare
equal.  Under that normalization, sidecar `"parachain_system"` /
`"set_validation_data"` are identical to the node-reported names, yet
`_check_block` on a block that agrees everywhere else returns `False`:
the code lowercases the sidecar side but strips underscores only on the
node side. -/
theorem pallet_normalization_counterexample :
    specNormalizeName "parachain_system" = specNormalizeName "parachain_system" ∧
    specNormalizeName "set_validation_data" = specNormalizeName "set_validation_data" ∧
    _check_block (some sbC2, Option.none) (fun _ => (some rbC2, Option.none)) =
      .ok false :=
  ⟨rfl, rfl, by rfl⟩

/-- C2 (amended): the comparison lowercases the sidecar pallet/method
name and lowercases-then-underscore-strips the node name; the node-side
normalization is idempotent and insensitive to case and underscores, so
sidecar `"parachainSystem"`/`"setValidationData"` matches node-reported
`"parachain_system"`/`"set_validation_data"`. -/
theorem pallet_normalization_amended :
    (∀ (se : SidecarExtrinsic) (ne : NodeExtrinsic) (p mn : String),
        se.method = some { pallet := some p, method := some mn } →
        se.signature = Option.none →
        extComparisons se ne = .ok
          [("Extrinsics - Pallet", Val.str (pyLower p),
             Val.str (nodeNameNorm ne.callModule)),
           ("Extrinsics - Method", Val.str (pyLower mn),
             Val.str (nodeNameNorm ne.callFunction))]) ∧
    pyLower "parachainSystem" = nodeNameNorm "parachain_system" ∧
    pyLower "setValidationData" = nodeNameNorm "set_validation_data" ∧
    (∀ s, nodeNameNorm (nodeNameNorm s) = nodeNameNorm s) ∧
    (∀ s, nodeNameNorm (pyLower s) = nodeNameNorm s) ∧
    (∀ s, nodeNameNorm (pyStripUnderscores s) = nodeNameNorm s) := by
  refine ⟨?_, rfl, rfl, nodeNameNorm_idem, nodeNameNorm_lower_invariant,
    nodeNameNorm_strip_invariant⟩
  intro se ne p mn hm hs
  simp [extComparisons, hm, hs, nodeNameNorm]

theorem pallet_normalization_amended_witness :
    extComparisons
        { method := some { pallet := some "parachainSystem",
                           method := some "setValidationData" },
          signature := Option.none }
        { callModule := "parachain_system",
          callFunction := "set_validation_data",
          signature := Option.none } =
      .ok [("Extrinsics - Pallet", Val.str "parachainsystem",
             Val.str "parachainsystem"),
           ("Extrinsics - Method", Val.str "setvalidationdata",
             Val.str "setvalidationdata")] :=
  (pallet_normalization_amended.1 _ _ "parachainSystem" "setValidationData"
    rfl rfl).trans (by rfl)

/-! ### Shape of the comparison list built by `_check_block` -/

theorem extComparisons_length (se : SidecarExtrinsic) (ne : NodeExtrinsic)
    (l : List FieldComparison) (h : extComparisons se ne = .ok l) :
    l.length = 2 + (if se.signature.isSome then 1 else 0) := by
  unfold extComparisons at h
  cases hs : se.signature with
  | none =>
    rw [hs] at h
    simp only [Except.ok.injEq] at h
    subst h
    simp [hs]
  | some sig =>
    rw [hs] at h
    cases hn : ne.signature with
    | none => rw [hn] at h; simp at h
    | some nsig =>
      rw [hn] at h
      simp only [Except.ok.injEq] at h
      subst h
      simp [hs]

theorem extrinsicComparisons_length :
    ∀ (ss : List SidecarExtrinsic) (ns : List NodeExtrinsic)
      (l : List FieldComparison), extrinsicComparisons ss ns = .ok l →
      l.length = 2 * ss.length + ss.countP (fun e => e.signature.isSome)
  | [], ns, l, h => by
    simp only [extrinsicComparisons, Except.ok.injEq] at h
    subst h
    simp
  | se :: ss, [], l, h => by
    simp [extrinsicComparisons] at h
  | se :: ss, ne :: ns, l, h => by
    unfold extrinsicComparisons at h
    cases hh : extComparisons se ne with
    | error e => rw [hh] at h; simp at h
    | ok head =>
      rw [hh] at h
      cases ht : extrinsicComparisons ss ns with
      | error e => rw [ht] at h; simp at h
      | ok tail =>
        rw [ht] at h
        simp only [Except.ok.injEq] at h
        subst h
        have h1 := extComparisons_length se ne head hh
        have h2 := extrinsicComparisons_length ss ns tail ht
        simp only [List.length_append, List.countP_cons, List.length_cons, h1, h2]
        by_cases hsig : se.signature.isSome <;> simp [hsig] <;> omega

/-- C1: whenever `_check_block` completes the comparison-building phase
on a sidecar block (N extrinsics, the node block supplying at least N
index-aligned extrinsics, as successful construction requires), the
comparison list has exactly `5 + 2 * N` entries plus one extra signer
comparison per sidecar extrinsic that carries a signature object. -/
theorem check_block_comparison_count (sb : SidecarBlock) (rb : RpcBlock)
    (cs : List FieldComparison) (h : buildComparisons sb rb = .ok cs) :
    cs.length = 5 + 2 * (sb.extrinsics.getD []).length +
      (sb.extrinsics.getD []).countP (fun e => e.signature.isSome) := by
  unfold buildComparisons at h
  cases h1 : pyIntDec sb.number with
  | error e => rw [h1] at h; simp at h
  | ok n =>
    rw [h1] at h
    cases h2 : pyIntHex rb.header.number with
    | error e => rw [h2] at h; simp at h
    | ok rn =>
      rw [h2] at h
      cases h3 : extrinsicComparisons (sb.extrinsics.getD []) rb.extrinsics with
      | error e => rw [h3] at h; simp at h
      | ok ec =>
        rw [h3] at h
        simp only [Except.ok.injEq] at h
        subst h
        have hl := extrinsicComparisons_length _ _ _ h3
        simp only [List.length_append, hl]
        simp
        omega

/-- A sidecar block with two extrinsics, the second signed, agreeing
with `rbW`. -/
def sbW : SidecarBlock :=
  { hash := some "0xh", number := some "100",
    parentHash := some "0xp", stateRoot := some "0xs",
    extrinsicsRoot := some "0xe",
    extrinsics := some
      [{ method := some { pallet := some "timestamp", method := some "set" },
         signature := Option.none },
       { method := some { pallet := some "balances", method := some "transfer" },
         signature := some { signer := some { id := some "5abc" } } }] }

/-- The node block matching `sbW`. -/
def rbW : RpcBlock :=
  { header := { number := "0x64", parentHash := "0xp", stateRoot := "0xs",
                extrinsicsRoot := "0xe" },
    extrinsics := [{ callModule := "timestamp", callFunction := "set",
                     signature := Option.none },
                   { callModule := "balances", callFunction := "transfer",
                     signature := some { signerAddress := "5abc" } }] }

theorem check_block_comparison_count_witness :
    ∃ cs, buildComparisons sbW rbW = .ok cs ∧
      cs.length = 5 + 2 * (sbW.extrinsics.getD []).length +
        (sbW.extrinsics.getD []).countP (fun e => e.signature.isSome) := by
  obtain ⟨cs, hcs⟩ : ∃ cs, buildComparisons sbW rbW = .ok cs := ⟨_, rfl⟩
  exact ⟨cs, hcs, check_block_comparison_count sbW rbW cs hcs⟩

/-- The signer comparisons `_check_block` extracts: one per
index-aligned extrinsic pair whose sidecar record carries a signature
object, pairing sidecar `signature.signer.id` (default `"unknown"`)
with the node extrinsic's `signature.signer.address`, both as opaque
strings. -/
def signerComparisonList :
    List SidecarExtrinsic → List NodeExtrinsic → List FieldComparison
  | [], _ => []
  | _ :: _, [] => []
  | se :: ss, ne :: ns =>
    (match se.signature, ne.signature with
     | some sig, some nsig =>
       [("Extrinsics - Signer",
         Val.str ((sig.signer.getD { id := Option.none }).id.getD "unknown"),
         Val.str nsig.signerAddress)]
     | _, _ => []) ++ signerComparisonList ss ns

theorem extComparisons_signer_filter (se : SidecarExtrinsic)
    (ne : NodeExtrinsic) (l : List FieldComparison)
    (h : extComparisons se ne = .ok l) :
    l.filter (fun c => c.1 == "Extrinsics - Signer") =
      (match se.signature, ne.signature with
       | some sig, some nsig =>
         [("Extrinsics - Signer",
           Val.str ((sig.signer.getD { id := Option.none }).id.getD "unknown"),
           Val.str nsig.signerAddress)]
       | _, _ => []) := by
  unfold extComparisons at h
  cases hs : se.signature with
  | none =>
    rw [hs] at h
    simp only [Except.ok.injEq] at h
    subst h
    rfl
  | some sig =>
    rw [hs] at h
    cases hn : ne.signature with
    | none => rw [hn] at h; simp at h
    | some nsig =>
      rw [hn] at h
      simp only [Except.ok.injEq] at h
      subst h
      rfl

theorem extrinsicComparisons_signer_filter :
    ∀ (ss : List SidecarExtrinsic) (ns : List NodeExtrinsic)
      (l : List FieldComparison), extrinsicComparisons ss ns = .ok l →
      l.filter (fun c => c.1 == "Extrinsics - Signer") =
        signerComparisonList ss ns
  | [], ns, l, h => by
    simp only [extrinsicComparisons, Except.ok.injEq] at h
    subst h
    rfl
  | se :: ss, [], l, h => by
    simp [extrinsicComparisons] at h
  | se :: ss, ne :: ns, l, h => by
    unfold extrinsicComparisons at h
    cases hh : extComparisons se ne with
    | error e => rw [hh] at h; simp at h
    | ok head =>
      rw [hh] at h
      cases ht : extrinsicComparisons ss ns with
      | error e => rw [ht] at h; simp at h
      | ok tail =>
        rw [ht] at h
        simp only [Except.ok.injEq] at h
        subst h
        rw [List.filter_append,
          extComparisons_signer_filter se ne head hh,
          extrinsicComparisons_signer_filter ss ns tail ht]
        rfl

/-- C3: in any comparison list `_check_block` builds, the signer
comparisons are exactly one per sidecar extrinsic carrying a signature
object, comparing the sidecar's nested `signature.signer.id` against
the index-aligned node extrinsic's `signature.signer.address` as opaque
strings. -/
theorem check_block_signer_comparisons (sb : SidecarBlock) (rb : RpcBlock)
    (cs : List FieldComparison) (h : buildComparisons sb rb = .ok cs) :
    cs.filter (fun c => c.1 == "Extrinsics - Signer") =
      signerComparisonList (sb.extrinsics.getD []) rb.extrinsics := by
  unfold buildComparisons at h
  cases h1 : pyIntDec sb.number with
  | error e => rw [h1] at h; simp at h
  | ok n =>
    rw [h1] at h
    cases h2 : pyIntHex rb.header.number with
    | error e => rw [h2] at h; simp at h
    | ok rn =>
      rw [h2] at h
      cases h3 : extrinsicComparisons (sb.extrinsics.getD []) rb.extrinsics with
      | error e => rw [h3] at h; simp at h
      | ok ec =>
        rw [h3] at h
        simp only [Except.ok.injEq] at h
        subst h
        rw [List.filter_append, extrinsicComparisons_signer_filter _ _ _ h3]
        rfl

theorem check_block_signer_comparisons_witness :
    ∃ cs, buildComparisons sbW rbW = .ok cs ∧
      cs.filter (fun c => c.1 == "Extrinsics - Signer") =
        [("Extrinsics - Signer", Val.str "5abc", Val.str "5abc")] := by
  obtain ⟨cs, hcs⟩ : ∃ cs, buildComparisons sbW rbW = .ok cs := ⟨_, rfl⟩
  refine ⟨cs, hcs, ?_⟩
  rw [check_block_signer_comparisons sbW rbW cs hcs]
  rfl

/-! ### Missing-field behaviour of `_check_block` -/

/-- A sidecar payload with a hash but no `number` field. -/
def sbNoNumber : SidecarBlock :=
  { hash := some "0xh", number := Option.none, parentHash := some "0xp",
    stateRoot := some "0xs", extrinsicsRoot := some "0xe",
    extrinsics := some [] }

/-- C7 counterexample: on a fetched payload lacking the block `number`
field, `_check_block` does not return `False` -- `int(None)` raises a
`TypeError` that escapes the check. -/
theorem missing_number_counterexample :
    _check_block (some sbNoNumber, Option.none)
        (fun _ => (some rbC2, Option.none)) = .error PyErr.typeError ∧
    _check_block (some sbNoNumber, Option.none)
        (fun _ => (some rbC2, Option.none)) ≠ .ok false := by
  have h : _check_block (some sbNoNumber, Option.none)
      (fun _ => (some rbC2, Option.none)) = .error PyErr.typeError := by rfl
  refine ⟨h, ?_⟩
  rw [h]
  simp

/-- C7 (amended): a missing block hash surfaces as an immediate check
failure (`_check_block` returns `False`, with no retry), but a missing
block `number` raises an uncaught `TypeError` that escapes the check
(only the top-level entry point catches it). -/
theorem missing_field_behaviour :
    (∀ (sb : SidecarBlock) (rf : String → Option RpcBlock × Option String),
        sb.hash = Option.none →
        _check_block (some sb, Option.none) rf = .ok false) ∧
    (∀ (sb : SidecarBlock) (rb : RpcBlock)
        (rf : String → Option RpcBlock × Option String) (h : String),
        sb.hash = some h → ¬(h = "") → rf h = (some rb, Option.none) →
        sb.number = Option.none →
        _check_block (some sb, Option.none) rf = .error PyErr.typeError) := by
  constructor
  · intro sb rf hh
    simp [_check_block, pyTruthyStr, hh]
  · intro sb rb rf h hh hne hrf hnum
    simp [_check_block, pyTruthyStr, hh, hne, hrf, buildComparisons,
      pyIntDec, hnum]

theorem missing_field_behaviour_witness :
    _check_block (some { sbC2 with hash := Option.none }, Option.none)
        (fun _ => (some rbC2, Option.none)) = .ok false ∧
    _check_block (some sbNoNumber, Option.none)
        (fun _ => (some rbC2, Option.none)) = .error PyErr.typeError :=
  ⟨missing_field_behaviour.1 _ _ rfl,
   missing_field_behaviour.2 sbNoNumber rbC2 _ "0xh" rfl (by simp) rfl rfl⟩

/-! ### Closed form of the last-N-blocks loop -/

/-- Statistics contribution the loop takes from the second sidecar
fetch of a validated block, as `(transactions, extrinsics)`: a fetch
yielding no payload contributes nothing (its error is discarded). -/
def statsContribution (fetchB : Int → Option SidecarBlock × Option String)
    (bn : Int) : Nat × Nat :=
  match (fetchB bn).1 with
  | Option.none => (0, 0)
  | some sb =>
    (actualTransactionCount (sb.extrinsics.getD []),
     (sb.extrinsics.getD []).length)

theorem lastN_foldlM_spec (checkB : Int → Except PyErr Bool)
    (fetchB : Int → Option SidecarBlock × Option String)
    (hn : Int) (b : Nat → Bool) :
    ∀ (is : List Nat) (st : LastNState),
      (∀ i ∈ is, checkB (hn - i) = .ok (b i)) →
      is.foldlM (lastNStep checkB fetchB hn) st = .ok
        { allPassed := st.allPassed && is.all b
          totalTransactions := st.totalTransactions +
            ((is.filter b).map
              (fun i : Nat => (statsContribution fetchB (hn - (i : Int))).1)).sum
          totalExtrinsics := st.totalExtrinsics +
            ((is.filter b).map
              (fun i : Nat => (statsContribution fetchB (hn - (i : Int))).2)).sum
          tested := st.tested ++ is.map (fun i : Nat => hn - (i : Int)) }
  | [], st, _ => by cases st; simp [pure, Except.pure]
  | i :: is, st, hc => by
    have hci := hc i (List.mem_cons_self i is)
    have hcr : ∀ j ∈ is, checkB (hn - j) = .ok (b j) :=
      fun j hj => hc j (List.mem_cons_of_mem i hj)
    have ih := lastN_foldlM_spec checkB fetchB hn b is
    have hbind : ∀ (x : LastNState) (g : LastNState → Except PyErr LastNState),
        (Except.ok x >>= g) = g x := fun _ _ => rfl
    rw [List.foldlM_cons]
    cases hb : b i with
    | false =>
      have hstep : lastNStep checkB fetchB hn st i =
          Except.ok { st with allPassed := false
                              tested := st.tested ++ [hn - (i : Int)] } := by
        unfold lastNStep
        rw [hci, hb]
        rfl
      rw [hstep, hbind, ih _ hcr]
      simp [hb, List.filter_cons, List.append_assoc]
    | true =>
      cases hfb : (fetchB (hn - (i : Int))).1 with
      | none =>
        have hstep : lastNStep checkB fetchB hn st i =
            Except.ok { st with tested := st.tested ++ [hn - (i : Int)] } := by
          unfold lastNStep
          rw [hci, hb, hfb]
          rfl
        have hco : statsContribution fetchB (hn - (i : Int)) = (0, 0) := by
          unfold statsContribution
          rw [hfb]
        rw [hstep, hbind, ih _ hcr]
        simp [hb, List.filter_cons, hco, Nat.add_assoc, List.append_assoc]
      | some sb =>
        have hstep : lastNStep checkB fetchB hn st i =
            Except.ok { st with
              totalExtrinsics :=
                st.totalExtrinsics + (sb.extrinsics.getD []).length
              totalTransactions := st.totalTransactions +
                actualTransactionCount (sb.extrinsics.getD [])
              tested := st.tested ++ [hn - (i : Int)] } := by
          unfold lastNStep
          rw [hci, hb, hfb]
          rfl
        have hco : statsContribution fetchB (hn - (i : Int)) =
            (actualTransactionCount (sb.extrinsics.getD []),
             (sb.extrinsics.getD []).length) := by
          unfold statsContribution
          rw [hfb]
        rw [hstep, hbind, ih _ hcr]
        simp [hb, List.filter_cons, hco, Nat.add_assoc, List.append_assoc]

/-! ### Last-N-blocks theorems -/

/-- C5: with sidecar head height `H`, the last-N check validates
exactly the heights `H, H-1, ..., H-N+1` in that order -- every height
is passed to `_check_block` even when an earlier height failed
validation -- and the check's returned boolean is the conjunction of
the per-block validation results. -/
theorem last_n_blocks_iteration (numBlocks : Nat) (hb : SidecarBlock)
    (headNumber : Int) (checkB : Int → Except PyErr Bool)
    (fetchB : Int → Option SidecarBlock × Option String) (b : Nat → Bool)
    (hnum : pyIntDec hb.number = .ok headNumber)
    (hc : ∀ i, i < numBlocks → checkB (headNumber - i) = .ok (b i)) :
    test_last_n_blocks_transactions numBlocks (some hb, Option.none)
        checkB fetchB = .ok ((List.range numBlocks).all b) ∧
    ∃ st, lastNLoop checkB fetchB headNumber numBlocks = .ok st ∧
      st.tested = (List.range numBlocks).map
        (fun i : Nat => headNumber - (i : Int)) ∧
      st.allPassed = (List.range numBlocks).all b := by
  have hloop := lastN_foldlM_spec checkB fetchB headNumber b
    (List.range numBlocks)
    { allPassed := true, totalTransactions := 0, totalExtrinsics := 0,
      tested := [] }
    (fun i hi => hc i (List.mem_range.mp hi))
  have hloop' : lastNLoop checkB fetchB headNumber numBlocks = .ok
      { allPassed := (List.range numBlocks).all b
        totalTransactions := (((List.range numBlocks).filter b).map
          (fun i : Nat =>
            (statsContribution fetchB (headNumber - (i : Int))).1)).sum
        totalExtrinsics := (((List.range numBlocks).filter b).map
          (fun i : Nat =>
            (statsContribution fetchB (headNumber - (i : Int))).2)).sum
        tested := (List.range numBlocks).map
          (fun i : Nat => headNumber - (i : Int)) } := by
    unfold lastNLoop
    rw [hloop]
    simp
  refine ⟨?_, ⟨_, hloop', rfl, rfl⟩⟩
  show (match pyIntDec hb.number with
        | .error e => (.error e : Except PyErr Bool)
        | .ok hn =>
          match lastNLoop checkB fetchB hn numBlocks with
          | .error e => .error e
          | .ok st => .ok st.allPassed) = _
  rw [hnum]
  show (match lastNLoop checkB fetchB headNumber numBlocks with
        | .error e => (.error e : Except PyErr Bool)
        | .ok st => .ok st.allPassed) = _
  rw [hloop']

theorem last_n_blocks_iteration_witness :
    test_last_n_blocks_transactions 3 (some sbW, Option.none)
        (fun bn => .ok (bn != 99)) (fun _ => (some sbW, Option.none)) =
      .ok false := by
  have h := (last_n_blocks_iteration 3 sbW 100 (fun bn => .ok (bn != 99))
    (fun _ => (some sbW, Option.none))
    (fun i => ((100 : Int) - (i : Int)) != 99) rfl (fun i _ => rfl)).1
  rw [h]
  rfl

/-- Stated from the spec for C6: an extrinsic counts as a "real"
transaction exactly when it is not `timestamp.set` and not
`parachainSystem` with method `setValidationData` or `sudo`. -/
def countedAsTransaction (e : SidecarExtrinsic) : Prop :=
  ¬(sidecarPallet e = "timestamp" ∧ sidecarMethodName e = "set") ∧
  ¬(sidecarPallet e = "parachainSystem" ∧
    (sidecarMethodName e = "setValidationData" ∨
     sidecarMethodName e = "sudo"))

instance (e : SidecarExtrinsic) : Decidable (countedAsTransaction e) := by
  unfold countedAsTransaction
  infer_instance

theorem not_skipped_eq_decide (e : SidecarExtrinsic) :
    (!isSkippedInherent e) = decide (countedAsTransaction e) := by
  by_cases h1 : sidecarPallet e = "timestamp" <;>
    by_cases h2 : sidecarMethodName e = "set" <;>
    by_cases h3 : sidecarPallet e = "parachainSystem" <;>
    by_cases h4 : sidecarMethodName e = "setValidationData" <;>
    by_cases h5 : sidecarMethodName e = "sudo" <;>
    simp [isSkippedInherent, countedAsTransaction, h1, h2, h3, h4, h5]

theorem actualTransactionCount_eq_countP :
    ∀ es : List SidecarExtrinsic,
      actualTransactionCount es =
        es.countP (fun e => decide (countedAsTransaction e))
  | [] => rfl
  | e :: es => by
    unfold actualTransactionCount
    rw [List.countP_cons, actualTransactionCount_eq_countP es,
      ← not_skipped_eq_decide]
    by_cases h : isSkippedInherent e
    · simp [h]
    · simp [h]
      omega

/-- C6: for a block that passed validation and whose statistics
re-fetch yields a payload, the loop counts every extrinsic toward
`total_extrinsics` and counts an extrinsic toward `total_transactions`
exactly when it is neither `timestamp.set` nor `parachainSystem` with
method `setValidationData` or `sudo`. -/
theorem last_n_blocks_transaction_stats (H : Int) (sbB : SidecarBlock)
    (checkB : Int → Except PyErr Bool)
    (fetchB : Int → Option SidecarBlock × Option String)
    (hc : checkB H = .ok true)
    (hf : fetchB H = (some sbB, Option.none)) :
    (∃ st, lastNLoop checkB fetchB H 1 = .ok st ∧
       st.totalExtrinsics = (sbB.extrinsics.getD []).length ∧
       st.totalTransactions = (sbB.extrinsics.getD []).countP
         (fun e => decide (countedAsTransaction e))) ∧
    ∀ es : List SidecarExtrinsic,
      actualTransactionCount es =
        es.countP (fun e => decide (countedAsTransaction e)) := by
  refine ⟨?_, actualTransactionCount_eq_countP⟩
  have hc' : ∀ i ∈ List.range 1, checkB (H - i) = .ok ((fun _ => true) i) := by
    intro i hi
    have hi0 : i = 0 := by simpa using hi
    subst hi0
    simpa using hc
  have hloop := lastN_foldlM_spec checkB fetchB H (fun _ => true)
    (List.range 1)
    { allPassed := true, totalTransactions := 0, totalExtrinsics := 0,
      tested := [] } hc'
  have hco : statsContribution fetchB H =
      (actualTransactionCount (sbB.extrinsics.getD []),
       (sbB.extrinsics.getD []).length) := by
    unfold statsContribution
    rw [hf]
  have hr1 : List.range 1 = [0] := rfl
  refine ⟨_, by unfold lastNLoop; rw [hloop], ?_, ?_⟩
  · simp [hr1, hco]
  · simp [hr1, hco, actualTransactionCount_eq_countP]

/-- A sidecar block with one `timestamp.set` inherent and two ordinary
extrinsics. -/
def sbC6 : SidecarBlock :=
  { hash := some "0xh", number := some "100",
    parentHash := some "0xp", stateRoot := some "0xs",
    extrinsicsRoot := some "0xe",
    extrinsics := some
      [{ method := some { pallet := some "timestamp", method := some "set" },
         signature := Option.none },
       { method := some { pallet := some "balances", method := some "transfer" },
         signature := Option.none },
       { method := some { pallet := some "system", method := some "remark" },
         signature := Option.none }] }

theorem last_n_blocks_transaction_stats_witness :
    ∃ st, lastNLoop (fun _ => .ok true)
        (fun _ => (some sbC6, Option.none)) 100 1 = .ok st ∧
      st.totalExtrinsics = 3 ∧ st.totalTransactions = 2 := by
  obtain ⟨⟨st, hst, hte, htt⟩, -⟩ := last_n_blocks_transaction_stats 100 sbC6
    (fun _ => .ok true) (fun _ => (some sbC6, Option.none)) rfl rfl
  refine ⟨st, hst, ?_, ?_⟩
  · rw [hte]; rfl
  · rw [htt]; rfl

/-- C9: statistics are accumulated only for blocks that passed
validation, as the sum over the validated heights of the contribution
of the second, separate sidecar fetch; a second fetch that yields no
payload contributes `(0, 0)` silently, and the check's boolean result
does not depend on the statistics fetcher at all. -/
theorem failed_blocks_contribute_nothing (N : Nat) (H : Int)
    (checkB : Int → Except PyErr Bool)
    (fetchB fetchB' : Int → Option SidecarBlock × Option String)
    (b : Nat → Bool)
    (hc : ∀ i, i < N → checkB (H - i) = .ok (b i)) :
    (∃ st, lastNLoop checkB fetchB H N = .ok st ∧
       st.totalTransactions = (((List.range N).filter b).map
         (fun i : Nat => (statsContribution fetchB (H - (i : Int))).1)).sum ∧
       st.totalExtrinsics = (((List.range N).filter b).map
         (fun i : Nat => (statsContribution fetchB (H - (i : Int))).2)).sum ∧
       st.allPassed = (List.range N).all b) ∧
    (∀ bn, (fetchB bn).1 = Option.none →
      statsContribution fetchB bn = (0, 0)) ∧
    (lastNLoop checkB fetchB H N).map LastNState.allPassed =
      (lastNLoop checkB fetchB' H N).map LastNState.allPassed := by
  have hmem : ∀ i ∈ List.range N, checkB (H - i) = .ok (b i) :=
    fun i hi => hc i (List.mem_range.mp hi)
  have hloop := lastN_foldlM_spec checkB fetchB H b (List.range N)
    { allPassed := true, totalTransactions := 0, totalExtrinsics := 0,
      tested := [] } hmem
  have hloop' := lastN_foldlM_spec checkB fetchB' H b (List.range N)
    { allPassed := true, totalTransactions := 0, totalExtrinsics := 0,
      tested := [] } hmem
  refine ⟨⟨_, by unfold lastNLoop; rw [hloop], by simp, by simp, by simp⟩,
    ?_, ?_⟩
  · intro bn hbn
    unfold statsContribution
    rw [hbn]
  · unfold lastNLoop
    rw [hloop, hloop']
    simp [Except.map]

theorem failed_blocks_contribute_nothing_witness :
    ∃ st, lastNLoop (fun bn => .ok (bn != 99))
        (fun _ => (Option.none, some "boom")) 100 2 = .ok st ∧
      st.totalTransactions = 0 ∧ st.totalExtrinsics = 0 ∧
      st.allPassed = false := by
  obtain ⟨⟨st, hst, htt, hte, hap⟩, -, -⟩ :=
    failed_blocks_contribute_nothing 2 100 (fun bn => .ok (bn != 99))
      (fun _ => (Option.none, some "boom"))
      (fun _ => (Option.none, some "boom"))
      (fun i => ((100 : Int) - (i : Int)) != 99) (fun i _ => rfl)
  refine ⟨st, hst, ?_, ?_, ?_⟩
  · rw [htt]; rfl
  · rw [hte]; rfl
  · rw [hap]; rfl

/-! ### Run driver theorem -/

/-- C8: past a successful node connection, the driver records a
`(label, passed)` pair for all four checks, in order, regardless of
individual failures, and the overall run result is true exactly when
every recorded check passed. -/
theorem run_driver_records_all_checks (ni rv hb ln : Bool) (n : Nat) :
    (run_tests true ni rv hb ln n).2 =
      [("Node Info", ni), ("Runtime Version", rv), ("Head Block", hb),
       (s!"Last {n} Blocks Transactions", ln)] ∧
    (run_tests true ni rv hb ln n).1 = (ni && rv && hb && ln) := by
  constructor
  · rfl
  · cases ni <;> cases rv <;> cases hb <;> cases ln <;> rfl

end SidecarTests
